import Mathlib

/-!
Shallow embedding of the relation / conversation / message core of the
pocket_chat client (src/app/services/relation-service.ts,
conversation-service.ts, and the chat service), together with proofs of
the specification's claims about it.

Modelling conventions:
* user ids, relation ids, conversation ids and message ids are `Nat`;
* the backend's `relations` / `conversations` collections and the
  in-memory signal collections are `List`s of records, in insertion
  order; `getList(1, 1)` / `getList(1, n)` first-match queries become
  `List.find?` / `List.any` with the same filter predicate;
* backend mutations performed by an operation are recorded in a trace of
  `BackendOp` values, so that "no backend call is made" and "the only
  effect is ..." are statable;
* fallible operations return `Except`; a thrown `Error` becomes an
  `.error` constructor and in-memory state is returned only on success,
  matching the code's no-optimistic-update behaviour;
* transport failures of read queries that the code catches are modelled
  by explicit `Bool` flags standing for "this query threw".
-/

namespace PocketChat

/-- Stored relation kinds, `RelationType` in irelation.ts.  The interface
type includes `pending_received` even though the data-model invariant says
it is never stored; we keep it so the embedding matches the source type. -/
inductive RelationType where
  | friend
  | blocked
  | pending_sent
  | pending_received
deriving DecidableEq, Repr

/-- Computed relation kinds, `ComputedRelationType` in irelation.ts:
the stored kinds plus `no_relation` (computed when no record exists). -/
inductive ComputedRelationType where
  | friend
  | blocked
  | pending_sent
  | pending_received
  | no_relation
deriving DecidableEq, Repr

/-- Injection of a stored kind into the computed kinds. -/
def RelationType.toComputed : RelationType → ComputedRelationType
  | .friend => .friend
  | .blocked => .blocked
  | .pending_sent => .pending_sent
  | .pending_received => .pending_received

/-- A directed relation record (`IRelation`): an edge `from_user → to_user`
with a kind.  Timestamps and display expansion are irrelevant to the claims
and are omitted. -/
structure Relation where
  id : Nat
  from_user : Nat
  to_user : Nat
  type : RelationType
deriving DecidableEq, Repr

/-- Computed relation status (`IRelationStatus`). -/
structure RelationStatus where
  type : ComputedRelationType
  isInitiatedByMe : Bool
  relation : Option Relation
deriving DecidableEq, Repr

/-- A conversation record (`IConversation`): an id and its participant
user ids (the expanded participants carry the same ids). -/
structure Conversation where
  id : Nat
  participants : List Nat
deriving DecidableEq, Repr

/-- A message record (`IMessage`), restricted to the fields the claims
touch (file payload fields omitted). -/
structure Message where
  id : Nat
  text : String
  user : Nat
  conversation : Nat
deriving DecidableEq, Repr

/-- Backend mutations an operation can issue, in issue order. -/
inductive BackendOp where
  | createRelation (r : Relation)
  | updateRelation (id : Nat) (t : RelationType)
  | deleteRelation (id : Nat)
  | createMessage (m : Message)
  | updateConversation (id : Nat)
deriving DecidableEq, Repr

/-- Errors thrown by RelationService operations. -/
inductive RelErr where
  | notAuthenticated
  | selfReference
  | invalidState (s : ComputedRelationType)
  | noPending
  | notFriend
  | alreadyBlocked
deriving DecidableEq, Repr

/-- Errors thrown by ConversationService operations. -/
inductive ConvErr where
  | notAuthenticated
  | notFriends
deriving DecidableEq, Repr

/-- Errors thrown by ChatService operations. -/
inductive ChatErr where
  | notAuthenticated
  | emptyText
  | conversationNotFound
  | noOtherParticipant
  | blockedByMe
  | blockedBy
deriving DecidableEq, Repr

/-- Filter used for the outgoing (local → other) edge lookup. -/
def outgoingPred (me userId : Nat) (r : Relation) : Bool :=
  r.from_user == me && r.to_user == userId

/-- Filter used for the incoming (other → local) edge lookup. -/
def incomingPred (me userId : Nat) (r : Relation) : Bool :=
  r.from_user == userId && r.to_user == me

/-- RelationService.getRelationStatus: computed status between the current
user and `userId`, over the in-memory relations collection.  Checks the
outgoing edge first, then the incoming edge (reinterpreting `pending_sent`
as `pending_received`), and falls back to `no_relation`. -/
def getRelationStatus (currentUser : Option Nat) (relations : List Relation)
    (userId : Nat) : RelationStatus :=
  match currentUser with
  | none => ⟨.no_relation, false, none⟩
  | some me =>
    match relations.find? (outgoingPred me userId) with
    | some outgoing => ⟨outgoing.type.toComputed, true, some outgoing⟩
    | none =>
      match relations.find? (incomingPred me userId) with
      | some incoming =>
        let t : RelationType :=
          if incoming.type == RelationType.pending_sent then
            RelationType.pending_received
          else incoming.type
        ⟨t.toComputed, false, some incoming⟩
      | none => ⟨.no_relation, false, none⟩

/-- RelationService.isBlockedByMe. -/
def isBlockedByMe (currentUser : Option Nat) (relations : List Relation)
    (userId : Nat) : Bool :=
  let status := getRelationStatus currentUser relations userId
  status.type == ComputedRelationType.blocked && status.isInitiatedByMe

/-- RelationService.isBlockedBy. -/
def isBlockedBy (currentUser : Option Nat) (relations : List Relation)
    (userId : Nat) : Bool :=
  let status := getRelationStatus currentUser relations userId
  status.type == ComputedRelationType.blocked && !status.isInitiatedByMe

/-- RelationService.areFriends. -/
def areFriends (currentUser : Option Nat) (relations : List Relation)
    (userId : Nat) : Bool :=
  (getRelationStatus currentUser relations userId).type ==
    ComputedRelationType.friend

/-- RelationService.getRelationStatusFromDB: the authoritative variant that
queries the backend directly.  `db` is the backend relations collection and
`failOutgoing` / `failIncoming` say whether the corresponding `getList`
call throws; the source wraps both queries in one try/catch whose catch
returns `no_relation`. -/
def getRelationStatusFromDB (currentUser : Option Nat) (db : List Relation)
    (failOutgoing failIncoming : Bool) (userId : Nat) : RelationStatus :=
  match currentUser with
  | none => ⟨.no_relation, false, none⟩
  | some me =>
    if failOutgoing then ⟨.no_relation, false, none⟩
    else
      match db.find? (outgoingPred me userId) with
      | some outgoing => ⟨outgoing.type.toComputed, true, some outgoing⟩
      | none =>
        if failIncoming then ⟨.no_relation, false, none⟩
        else
          match db.find? (incomingPred me userId) with
          | some incoming =>
            let t : RelationType :=
              if incoming.type == RelationType.pending_sent then
                RelationType.pending_received
              else incoming.type
            ⟨t.toComputed, false, some incoming⟩
          | none => ⟨.no_relation, false, none⟩

/-- RelationService.sendFriendRequest.  On success the created record is
appended to the in-memory collection (`[...prev, relation]`) and the only
backend mutation is the create. -/
def sendFriendRequest (currentUser : Option Nat) (relations : List Relation)
    (targetUserId freshId : Nat) :
    Except RelErr (Relation × List Relation) × List BackendOp :=
  match currentUser with
  | none => (.error .notAuthenticated, [])
  | some me =>
    if me == targetUserId then (.error .selfReference, [])
    else
      let status := getRelationStatus (some me) relations targetUserId
      if !(status.type == ComputedRelationType.no_relation) then
        (.error (.invalidState status.type), [])
      else
        let rel : Relation := ⟨freshId, me, targetUserId, .pending_sent⟩
        (.ok (rel, relations ++ [rel]), [.createRelation rel])

/-- Update the kind of every record with the given id (the backend `update`
call and the in-memory `map` replacement coincide on a synced store). -/
def updateRelType (s : List Relation) (rid : Nat) (t : RelationType) :
    List Relation :=
  s.map (fun r => if r.id == rid then { r with type := t } else r)

/-- RelationService.acceptFriendRequest, on a store `s` representing the
synchronised in-memory/backend relations collection (the operation ends
with `fetchRelations()`, which re-syncs memory from the backend).  Requires
computed status `pending_received`; updates the incoming edge to `friend`,
then updates the reciprocal local → target edge to `friend` if present,
otherwise creates it with id `freshId`. -/
def acceptFriendRequest (currentUser : Option Nat) (s : List Relation)
    (targetUserId freshId : Nat) : Except RelErr (List Relation) :=
  match currentUser with
  | none => .error .notAuthenticated
  | some me =>
    let status := getRelationStatus (some me) s targetUserId
    match status.relation with
    | none => .error .noPending
    | some rel =>
      if status.type == ComputedRelationType.pending_received then
        let s1 := updateRelType s rel.id RelationType.friend
        match s1.find? (fun r => r.from_user == me && r.to_user == targetUserId) with
        | some outgoing => .ok (updateRelType s1 outgoing.id RelationType.friend)
        | none => .ok (s1 ++ [⟨freshId, me, targetUserId, RelationType.friend⟩])
      else .error .noPending

/-- RelationService.removeFriend: requires computed status `friend`;
deletes the found edge and, if present, the reciprocal `friend` edge, then
filters both (by id, kind `friend`) out of the in-memory collection.
Returns the new collection and the backend deletes issued. -/
def removeFriend (currentUser : Option Nat) (s : List Relation)
    (targetUserId : Nat) : Except RelErr (List Relation × List BackendOp) :=
  match currentUser with
  | none => .error .notAuthenticated
  | some me =>
    let status := getRelationStatus (some me) s targetUserId
    match status.relation with
    | none => .error .notFriend
    | some rel =>
      if status.type == ComputedRelationType.friend then
        let reciprocal := s.find? (fun r =>
          r.from_user == targetUserId && r.to_user == me &&
          r.type == RelationType.friend)
        let delOps : List BackendOp :=
          [.deleteRelation rel.id] ++
            (match reciprocal with
             | some rc => [.deleteRelation rc.id]
             | none => [])
        let s1 := s.filter (fun r =>
          !((r.id == rel.id ||
              (match reciprocal with
               | some rc => r.id == rc.id
               | none => false)) && r.type == RelationType.friend))
        .ok (s1, delOps)
      else .error .notFriend

/-- Tail of RelationService.blockUser, from the point where any existing
friendship has been removed (`s1` is the in-memory collection there,
`trace` its states so far and `ops1` the backend deletes issued): unless
the local user already blocks the target, the local → target edge is
created or updated to kind `blocked` (a fresh create is used when the
target blocked first), the in-memory collection is updated, and the new
record, the full state trace and the full operation list are returned. -/
def blockUserFinish (me : Nat) (s1 : List Relation)
    (trace : List (List Relation)) (ops1 : List BackendOp)
    (targetUserId freshId : Nat) :
    Except RelErr (Relation × List (List Relation) × List BackendOp) :=
  let status := getRelationStatus (some me) s1 targetUserId
  if status.type == ComputedRelationType.blocked && status.isInitiatedByMe then
    .error .alreadyBlocked
  else
    let fresh : Relation := ⟨freshId, me, targetUserId, .blocked⟩
    let blockedRelation : Relation :=
      if status.type == ComputedRelationType.blocked && !status.isInitiatedByMe then
        fresh
      else
        match status.relation with
        | some rel => { rel with type := RelationType.blocked }
        | none => fresh
    let ops2 : List BackendOp :=
      if status.type == ComputedRelationType.blocked && !status.isInitiatedByMe then
        [.createRelation fresh]
      else
        match status.relation with
        | some rel => [.updateRelation rel.id RelationType.blocked]
        | none => [.createRelation fresh]
    let s2 : List Relation :=
      match status.relation with
      | some rel => s1.map (fun r => if r.id == rel.id then blockedRelation else r)
      | none => s1 ++ [blockedRelation]
    .ok (blockedRelation, trace ++ [s2], ops1 ++ ops2)

/-- RelationService.blockUser.  Returns, on success, the blocked relation
record, the successive states of the in-memory collection (initial state
included), and the backend mutations issued.  If currently friends the
friendship is removed first (removeFriend), then blockUserFinish performs
the block itself. -/
def blockUser (currentUser : Option Nat) (s : List Relation)
    (targetUserId freshId : Nat) :
    Except RelErr (Relation × List (List Relation) × List BackendOp) :=
  match currentUser with
  | none => .error .notAuthenticated
  | some me =>
    if me == targetUserId then .error .selfReference
    else if areFriends (some me) s targetUserId then
      match removeFriend (some me) s targetUserId with
      | .error e => .error e
      | .ok (s1, ops1) =>
        blockUserFinish me s1 [s, s1] ops1 targetUserId freshId
    else blockUserFinish me s [s] [] targetUserId freshId

/-- RelationService.handleRelationCreate, for a sequentially delivered
event (the in-flight marker set is empty): append the record unless a
record with the same id is already present. -/
def handleRelationCreate (s : List Relation) (record : Relation) :
    List Relation :=
  if s.any (fun r => r.id == record.id) then s else s ++ [record]

/-- Replay of backend relation mutations against a backend collection:
how the `relations` collection evolves under a trace of operations. -/
def applyOps (db : List Relation) : List BackendOp → List Relation
  | [] => db
  | op :: rest =>
    let db1 :=
      match op with
      | .createRelation r => db ++ [r]
      | .updateRelation rid t =>
        db.map (fun r => if r.id == rid then { r with type := t } else r)
      | .deleteRelation rid => db.filter (fun r => !(r.id == rid))
      | _ => db
    applyOps db1 rest

/-- ConversationService.getOtherParticipant: the first expanded
participant whose id differs from the current user's. -/
def getOtherParticipant (currentUser : Option Nat) (conv : Conversation) :
    Option Nat :=
  match currentUser with
  | none => none
  | some me => conv.participants.find? (fun p => !(p == me))

/-- The backend friendship query both conversation reconciliation paths
run: does a `friend` edge exist in the backend relations collection in
either direction between the two users (filter
`(from_user = me && to_user = other && type = "friend") ||
(from_user = other && to_user = me && type = "friend")`)? -/
def friendEdgeEitherDirection (relDB : List Relation) (me other : Nat) :
    Bool :=
  relDB.any (fun r =>
    (r.from_user == me && r.to_user == other &&
      r.type == RelationType.friend) ||
    (r.from_user == other && r.to_user == me &&
      r.type == RelationType.friend))

/-- ConversationService.fetchConversations, from the point where the page
of conversations touching the local user has been fetched: the collection
is replaced by the fetched conversations that survive the filter — other
participant resolvable, not blocked by me, not blocking me (both from the
in-memory relations), and the backend friendship query returns at least
one record.  `relQueryFails` says the friendship query throws, in which
case the conversation is skipped. -/
def fetchConversations (me : Nat) (memRels relDB : List Relation)
    (fetched : List Conversation) (relQueryFails : Bool) :
    List Conversation :=
  fetched.filter (fun conv =>
    match getOtherParticipant (some me) conv with
    | none => false
    | some other =>
      if isBlockedByMe (some me) memRels other then false
      else if isBlockedBy (some me) memRels other then false
      else if relQueryFails then false
      else friendEdgeEitherDirection relDB me other)

/-- Filter used by getOrCreateConversation to look up the conversation of
an unordered pair (`participants ~ me && participants ~ other`). -/
def pairPred (me other : Nat) (c : Conversation) : Bool :=
  c.participants.contains me && c.participants.contains other

/-- ConversationService.getOrCreateConversation.  `db` is the backend
conversations collection and `mem` the in-memory one; requires computed
relation status `friend` with the other user.  Finds the first backend
conversation containing both participants; otherwise creates one with id
`freshId` (appended on the backend, prepended in memory).  Returns the
conversation and the new backend / in-memory collections. -/
def getOrCreateConversation (currentUser : Option Nat)
    (relations : List Relation) (db mem : List Conversation)
    (otherUserId freshId : Nat) :
    Except ConvErr (Conversation × List Conversation × List Conversation) :=
  match currentUser with
  | none => .error .notAuthenticated
  | some me =>
    if !((getRelationStatus (some me) relations otherUserId).type ==
        ComputedRelationType.friend) then
      .error .notFriends
    else
      match db.find? (pairPred me otherUserId) with
      | some c => .ok (c, db, mem)
      | none =>
        let nc : Conversation := ⟨freshId, [me, otherUserId]⟩
        .ok (nc, db ++ [nc], nc :: mem)

/-- Block/friendship checks of handleConversationCreateOrUpdate once the
other participant is resolved: on any failed check the record is removed
from the in-memory collection `mem`; otherwise it is replaced in place if
present and prepended if absent. -/
def reconcileVisible (me other : Nat) (memRels relDB : List Relation)
    (mem : List Conversation) (fullRecord : Conversation)
    (relQueryFails : Bool) : List Conversation :=
  if isBlockedByMe (some me) memRels other then
    mem.filter (fun c => !(c.id == fullRecord.id))
  else if isBlockedBy (some me) memRels other then
    mem.filter (fun c => !(c.id == fullRecord.id))
  else if relQueryFails then
    mem.filter (fun c => !(c.id == fullRecord.id))
  else if friendEdgeEitherDirection relDB me other then
    if mem.any (fun c => c.id == fullRecord.id) then
      mem.map (fun c => if c.id == fullRecord.id then fullRecord else c)
    else fullRecord :: mem
  else
    mem.filter (fun c => !(c.id == fullRecord.id))

/-- Body of handleConversationCreateOrUpdate after the refetch: resolve
the current user and the other participant (removing the record when
either is missing), then apply the visibility checks. -/
def reconcileConversation (currentUser : Option Nat)
    (memRels relDB : List Relation) (mem : List Conversation)
    (fullRecord : Conversation) (relQueryFails : Bool) : List Conversation :=
  match currentUser with
  | none => mem.filter (fun c => !(c.id == fullRecord.id))
  | some me =>
    match getOtherParticipant (some me) fullRecord with
    | none => mem.filter (fun c => !(c.id == fullRecord.id))
    | some other =>
      reconcileVisible me other memRels relDB mem fullRecord relQueryFails

/-- ConversationService.handleConversationCreateOrUpdate: refetch the full
record from the backend (`convDB`; a failing refetch leaves the collection
unchanged), then reconcile it against the visibility checks. -/
def handleConversationCreateOrUpdate (currentUser : Option Nat)
    (memRels relDB : List Relation) (convDB mem : List Conversation)
    (recordId : Nat) (relQueryFails : Bool) : List Conversation :=
  match convDB.find? (fun c => c.id == recordId) with
  | none => mem
  | some fullRecord =>
    reconcileConversation currentUser memRels relDB mem fullRecord
      relQueryFails

/-- ChatService.handleMessageCreate, for a sequentially delivered event:
append the message unless one with the same id is already present (the
author-expansion fetch does not affect the collection membership). -/
def handleMessageCreate (mem : List Message) (record : Message) :
    List Message :=
  if mem.any (fun m => m.id == record.id) then mem else mem ++ [record]

/-- Final checks of ChatService.checkBlockStatus once the other
participant is resolved: throw if the local user blocks them or they
block the local user (both over the in-memory relations). -/
def blockGuard (me other : Nat) (memRels : List Relation) :
    Except ChatErr Unit :=
  if isBlockedByMe (some me) memRels other then .error .blockedByMe
  else if isBlockedBy (some me) memRels other then .error .blockedBy
  else .ok ()

/-- ChatService.checkBlockStatus: resolve the conversation from the
backend, find the other participant, and run the block checks. -/
def checkBlockStatus (currentUser : Option Nat) (memRels : List Relation)
    (convDB : List Conversation) (conversationId : Nat) :
    Except ChatErr Unit :=
  match currentUser with
  | none => .ok ()
  | some me =>
    match convDB.find? (fun c => c.id == conversationId) with
    | none => .error .conversationNotFound
    | some conv =>
      match conv.participants.find? (fun p => !(p == me)) with
      | none => .error .noOtherParticipant
      | some other => blockGuard me other memRels

/-- Whitespace test used by the trim model. -/
def isWhitespaceChar (c : Char) : Bool :=
  c == ' ' || c == '\t' || c == '\n' || c == '\r'

/-- The JS `text.trim()` call, modelled as dropping leading and trailing
whitespace characters. -/
def trimString (s : String) : String :=
  ⟨((s.data.dropWhile isWhitespaceChar).reverse.dropWhile
    isWhitespaceChar).reverse⟩

/-- ChatService.sendMessage: requires an authenticated user and non-empty
trimmed text, runs checkBlockStatus, then creates the message and bumps
the conversation timestamp.  The backend mutations issued are returned as
a trace (empty whenever an error is thrown first). -/
def sendMessage (currentUser : Option Nat) (memRels : List Relation)
    (convDB : List Conversation) (conversationId : Nat) (text : String)
    (freshId : Nat) : Except ChatErr Message × List BackendOp :=
  match currentUser with
  | none => (.error .notAuthenticated, [])
  | some me =>
    if (trimString text).isEmpty then (.error .emptyText, [])
    else
      match checkBlockStatus (some me) memRels convDB conversationId with
      | .error e => (.error e, [])
      | .ok _ =>
        let msg : Message := ⟨freshId, trimString text, me, conversationId⟩
        (.ok msg, [.createMessage msg, .updateConversation conversationId])

/-- Modelled from the spec (§3 visibility invariant, used only to compare
against the code): a conversation is eligible for the local user when some
other participant exists, both directional `friend` edges are present, and
neither direction carries a `blocked` edge. -/
def specVisible (me : Nat) (rels : List Relation) (conv : Conversation) :
    Prop :=
  ∃ other, other ∈ conv.participants ∧ other ≠ me ∧
    (∃ r ∈ rels, r.from_user = me ∧ r.to_user = other ∧
      r.type = RelationType.friend) ∧
    (∃ r ∈ rels, r.from_user = other ∧ r.to_user = me ∧
      r.type = RelationType.friend) ∧
    ¬(∃ r ∈ rels, r.from_user = me ∧ r.to_user = other ∧
      r.type = RelationType.blocked) ∧
    ¬(∃ r ∈ rels, r.from_user = other ∧ r.to_user = me ∧
      r.type = RelationType.blocked)

instance (me : Nat) (rels : List Relation) (conv : Conversation) :
    Decidable (specVisible me rels conv) := by
  unfold specVisible
  infer_instance

/-- The visibility condition the code actually applies on both
conversation reconciliation paths: other participant resolvable, computed
in-memory status with them not `blocked` (in either derived direction),
and at least one directional `friend` edge in the backend collection. -/
def codeVisible (me : Nat) (memRels relDB : List Relation)
    (conv : Conversation) : Prop :=
  ∃ other, getOtherParticipant (some me) conv = some other ∧
    (getRelationStatus (some me) memRels other).type ≠
      ComputedRelationType.blocked ∧
    friendEdgeEitherDirection relDB me other = true

/-- A relation record connecting the two given users, in either
direction. -/
def pairEdge (a b : Nat) (r : Relation) : Prop :=
  (r.from_user = a ∧ r.to_user = b) ∨ (r.from_user = b ∧ r.to_user = a)

instance (a b : Nat) (r : Relation) : Decidable (pairEdge a b r) := by
  unfold pairEdge
  infer_instance

/-- A collection state exposing both a friend edge and a blocked edge
between the same pair of users. -/
def friendAndBlockedCoexist (a b : Nat) (st : List Relation) : Prop :=
  (∃ r ∈ st, pairEdge a b r ∧ r.type = RelationType.friend) ∧
  (∃ r ∈ st, pairEdge a b r ∧ r.type = RelationType.blocked)

instance (a b : Nat) (st : List Relation) :
    Decidable (friendAndBlockedCoexist a b st) := by
  unfold friendAndBlockedCoexist
  infer_instance

/-- Helper: `find?` returns the unique element satisfying the predicate. -/
theorem find_unique {α : Type} {p : α → Bool} {s : List α} {a : α}
    (ha : a ∈ s) (hpa : p a = true)
    (huniq : ∀ b ∈ s, p b = true → b = a) : s.find? p = some a := by
  induction s with
  | nil => cases ha
  | cons h t ih =>
    by_cases hp : p h = true
    · rw [List.find?_cons_of_pos t hp]
      exact congrArg some (huniq h (List.mem_cons_self h t) hp)
    · rw [List.find?_cons_of_neg t hp]
      rcases List.mem_cons.mp ha with rfl | hmem
      · exact absurd hpa hp
      · exact ih hmem fun b hb => huniq b (List.mem_cons_of_mem h hb)

/-- Helper: `find?` only evaluates the predicate on members. -/
theorem find_congr {α : Type} {p q : α → Bool} {l : List α}
    (h : ∀ a ∈ l, p a = q a) : l.find? p = l.find? q := by
  induction l with
  | nil => rfl
  | cons x t ih =>
    have hx := h x (List.mem_cons_self x t)
    by_cases hp : p x = true
    · rw [List.find?_cons_of_pos t hp, List.find?_cons_of_pos t (hx ▸ hp)]
    · rw [List.find?_cons_of_neg t hp, List.find?_cons_of_neg t (hx ▸ hp)]
      exact ih fun a ha => h a (List.mem_cons_of_mem x ha)

/-- C2: getRelationStatus inspects the outgoing edge first and returns its
kind with isInitiatedByMe = true; failing that it inspects the incoming
edge, reinterpreting pending_sent as pending_received, with
isInitiatedByMe = false; if both are absent it returns no_relation.  In
particular a single pending_sent edge A→B yields pending_sent for A toward
B and pending_received for B toward A. -/
theorem relation_status_computation (me userId : Nat)
    (relations : List Relation) :
    (∀ r, relations.find? (outgoingPred me userId) = some r →
      getRelationStatus (some me) relations userId =
        ⟨r.type.toComputed, true, some r⟩) ∧
    (relations.find? (outgoingPred me userId) = none →
      (∀ r, relations.find? (incomingPred me userId) = some r →
        getRelationStatus (some me) relations userId =
          ⟨(if r.type = RelationType.pending_sent then
              RelationType.pending_received else r.type).toComputed,
            false, some r⟩) ∧
      (relations.find? (incomingPred me userId) = none →
        getRelationStatus (some me) relations userId =
          ⟨.no_relation, false, none⟩)) ∧
    (∀ A B i, A ≠ B →
      getRelationStatus (some A) [⟨i, A, B, .pending_sent⟩] B =
        ⟨.pending_sent, true, some ⟨i, A, B, .pending_sent⟩⟩ ∧
      getRelationStatus (some B) [⟨i, A, B, .pending_sent⟩] A =
        ⟨.pending_received, false, some ⟨i, A, B, .pending_sent⟩⟩) := by
  refine ⟨?_, ?_, ?_⟩
  · intro r h
    simp [getRelationStatus, h]
  · intro h
    refine ⟨?_, ?_⟩
    · intro r h2
      simp only [getRelationStatus, h, h2]
      by_cases hp : r.type = RelationType.pending_sent <;> simp [hp]
    · intro h2
      simp [getRelationStatus, h, h2]
  · intro A B i hAB
    have hne : (A == B) = false := beq_eq_false_iff_ne.mpr hAB
    constructor
    · simp [getRelationStatus, outgoingPred, List.find?,
        RelationType.toComputed]
    · simp [getRelationStatus, outgoingPred, incomingPred, List.find?, hne,
        RelationType.toComputed]

/-- Witness for relation_status_computation at a concrete single
pending_sent edge 1→2. -/
theorem relation_status_computation_witness :
    getRelationStatus (some 1) [⟨7, 1, 2, .pending_sent⟩] 2 =
      ⟨.pending_sent, true, some ⟨7, 1, 2, .pending_sent⟩⟩ ∧
    getRelationStatus (some 2) [⟨7, 1, 2, .pending_sent⟩] 1 =
      ⟨.pending_received, false, some ⟨7, 1, 2, .pending_sent⟩⟩ :=
  (relation_status_computation 0 0 []).2.2 1 2 7 (by decide)

/-- C9: if either backend query inside getRelationStatusFromDB fails, the
error is swallowed and the result is the no_relation status, identical to
what an empty backend collection produces. -/
theorem status_from_db_error_swallowed (me userId : Nat)
    (db : List Relation) (failOutgoing failIncoming : Bool)
    (h : failOutgoing = true ∨
      (db.find? (outgoingPred me userId) = none ∧ failIncoming = true)) :
    getRelationStatusFromDB (some me) db failOutgoing failIncoming userId =
      ⟨.no_relation, false, none⟩ ∧
    getRelationStatusFromDB (some me) db failOutgoing failIncoming userId =
      getRelationStatusFromDB (some me) [] false false userId := by
  rcases h with h | ⟨h1, h2⟩
  · subst h
    exact ⟨rfl, rfl⟩
  · subst h2
    cases failOutgoing with
    | true => exact ⟨rfl, rfl⟩
    | false =>
      refine ⟨?_, ?_⟩ <;> simp [getRelationStatusFromDB, h1]

/-- Witness for status_from_db_error_swallowed: a failing outgoing query
over a backend collection that does hold a friend record. -/
theorem status_from_db_error_swallowed_witness :
    getRelationStatusFromDB (some 1) [⟨3, 1, 2, .friend⟩] true false 2 =
      ⟨.no_relation, false, none⟩ ∧
    getRelationStatusFromDB (some 1) [⟨3, 1, 2, .friend⟩] true false 2 =
      getRelationStatusFromDB (some 1) [] false false 2 :=
  status_from_db_error_swallowed 1 2 [⟨3, 1, 2, .friend⟩] true false
    (Or.inl rfl)

/-- C6: sendFriendRequest throws without issuing any backend operation
when unauthenticated, when the target is the local user, or when the
computed status is not no_relation; when the preconditions hold its whole
effect is one created pending_sent edge local→target, appended to the
in-memory collection. -/
theorem send_friend_request_guards (s : List Relation)
    (me target freshId : Nat) :
    (sendFriendRequest none s target freshId =
      (.error .notAuthenticated, [])) ∧
    (sendFriendRequest (some target) s target freshId =
      (.error .selfReference, [])) ∧
    (me ≠ target →
      (getRelationStatus (some me) s target).type ≠
        ComputedRelationType.no_relation →
      sendFriendRequest (some me) s target freshId =
        (.error (.invalidState (getRelationStatus (some me) s target).type),
          [])) ∧
    (me ≠ target →
      (getRelationStatus (some me) s target).type =
        ComputedRelationType.no_relation →
      sendFriendRequest (some me) s target freshId =
        (.ok (⟨freshId, me, target, .pending_sent⟩,
            s ++ [⟨freshId, me, target, .pending_sent⟩]),
          [.createRelation ⟨freshId, me, target, .pending_sent⟩])) := by
  refine ⟨rfl, by simp [sendFriendRequest], ?_, ?_⟩
  · intro hne hstat
    have hne' : (me == target) = false := beq_eq_false_iff_ne.mpr hne
    simp [sendFriendRequest, hne', hstat]
  · intro hne hstat
    have hne' : (me == target) = false := beq_eq_false_iff_ne.mpr hne
    simp [sendFriendRequest, hne', hstat]

/-- Witness for send_friend_request_guards: a successful request from 1
to 2 over an empty collection. -/
theorem send_friend_request_guards_witness :
    sendFriendRequest (some 1) [] 2 5 =
      (.ok (⟨5, 1, 2, .pending_sent⟩, [⟨5, 1, 2, .pending_sent⟩]),
        [.createRelation ⟨5, 1, 2, .pending_sent⟩]) :=
  (send_friend_request_guards [] 1 2 5).2.2.2 (by decide) (by decide)

/-- C5: when the computed relation status with the other user is friend,
calling getOrCreateConversation twice in sequence returns the same
conversation both times — the first call finds or creates the record and
the second call finds that same record, leaving the backend and in-memory
collections of the first call's result unchanged. -/
theorem get_or_create_conversation_stable (me other fresh1 fresh2 : Nat)
    (rels : List Relation) (db mem : List Conversation)
    (hfriend : (getRelationStatus (some me) rels other).type =
      ComputedRelationType.friend) :
    ∃ c db1 mem1,
      getOrCreateConversation (some me) rels db mem other fresh1 =
        .ok (c, db1, mem1) ∧
      getOrCreateConversation (some me) rels db1 mem1 other fresh2 =
        .ok (c, db1, mem1) := by
  have hb : ((getRelationStatus (some me) rels other).type ==
      ComputedRelationType.friend) = true := by rw [hfriend]; rfl
  cases hfind : db.find? (pairPred me other) with
  | some c =>
    refine ⟨c, db, mem, ?_, ?_⟩ <;>
      · simp only [getOrCreateConversation, hb, Bool.not_true]
        rw [hfind]
        rfl
  | none =>
    have hnc : pairPred me other ⟨fresh1, [me, other]⟩ = true := by
      simp [pairPred, List.contains_cons]
    refine ⟨⟨fresh1, [me, other]⟩, db ++ [⟨fresh1, [me, other]⟩],
      ⟨fresh1, [me, other]⟩ :: mem, ?_, ?_⟩
    · simp only [getOrCreateConversation, hb, Bool.not_true]
      rw [hfind]
      rfl
    · simp only [getOrCreateConversation, hb, Bool.not_true]
      rw [List.find?_append, hfind, Option.none_or,
        List.find?_cons_of_pos _ hnc]
      rfl

/-- Witness for get_or_create_conversation_stable: friends 1 and 2 with
an empty conversation collection. -/
theorem get_or_create_conversation_stable_witness :
    ∃ c db1 mem1,
      getOrCreateConversation (some 1) [⟨3, 1, 2, .friend⟩] [] [] 2 8 =
        .ok (c, db1, mem1) ∧
      getOrCreateConversation (some 1) [⟨3, 1, 2, .friend⟩] db1 mem1 2 9 =
        .ok (c, db1, mem1) :=
  get_or_create_conversation_stable 1 2 8 9 [⟨3, 1, 2, .friend⟩] [] []
    (by decide)

/-- Helper: updateRelType commutes with find? for predicates unaffected
by the kind replacement. -/
theorem updateRelType_find? (s : List Relation) (rid : Nat)
    (t : RelationType) (p : Relation → Bool)
    (hp : ∀ r : Relation,
      p (if r.id == rid then { r with type := t } else r) = p r) :
    (updateRelType s rid t).find? p =
      (s.find? p).map
        (fun r => if r.id == rid then { r with type := t } else r) := by
  unfold updateRelType
  rw [List.find?_map]
  have hpe : (p ∘ fun r =>
      if r.id == rid then { r with type := t } else r) = p :=
    funext fun r => hp r
  rw [hpe]

/-- Helper: reduction of acceptFriendRequest once the status is known to
be pending_received with its relation record. -/
theorem acceptFriendRequest_reduce (me : Nat) (s : List Relation)
    (target freshId : Nat) (rel : Relation)
    (h : getRelationStatus (some me) s target =
      ⟨.pending_received, false, some rel⟩) :
    acceptFriendRequest (some me) s target freshId =
      match (updateRelType s rel.id RelationType.friend).find?
          (fun r => r.from_user == me && r.to_user == target) with
      | some outgoing =>
        .ok (updateRelType (updateRelType s rel.id RelationType.friend)
          outgoing.id RelationType.friend)
      | none =>
        .ok (updateRelType s rel.id RelationType.friend ++
          [⟨freshId, me, target, RelationType.friend⟩]) := by
  simp only [acceptFriendRequest]
  rw [h]
  rfl

/-- C3: when B's computed status toward A is pending_received (held by the
incoming record `inc`), acceptFriendRequest succeeds; afterwards every
record with the incoming edge's id has kind friend, a reciprocal B→A
friend edge exists, and both computed statuses are friend. -/
theorem accept_friend_request_mutualizes (s : List Relation)
    (B A freshId : Nat) (inc : Relation)
    (hStat : getRelationStatus (some B) s A =
      ⟨.pending_received, false, some inc⟩) :
    ∃ s2, acceptFriendRequest (some B) s A freshId = .ok s2 ∧
      s2 = updateRelType s inc.id .friend ++ [⟨freshId, B, A, .friend⟩] ∧
      (∀ r ∈ s2, r.id = inc.id → r.type = .friend) ∧
      (⟨freshId, B, A, .friend⟩ : Relation) ∈ s2 ∧
      (getRelationStatus (some B) s2 A).type = .friend ∧
      (getRelationStatus (some A) s2 B).type = .friend := by
  have hOut : s.find? (outgoingPred B A) = none := by
    cases hfind : s.find? (outgoingPred B A) with
    | none => rfl
    | some o =>
      have h2 : getRelationStatus (some B) s A =
          ⟨o.type.toComputed, true, some o⟩ := by
        simp [getRelationStatus, hfind]
      rw [hStat] at h2
      exact absurd (congrArg RelationStatus.isInitiatedByMe h2)
        Bool.false_ne_true
  have hIn : s.find? (incomingPred B A) = some inc := by
    cases hfind : s.find? (incomingPred B A) with
    | none =>
      have h2 : getRelationStatus (some B) s A =
          ⟨.no_relation, false, none⟩ := by
        simp [getRelationStatus, hOut, hfind]
      rw [hStat] at h2
      have h3 : (some inc : Option Relation) = none :=
        congrArg RelationStatus.relation h2
      exact absurd h3 (by simp)
    | some i =>
      have h2 : (getRelationStatus (some B) s A).relation = some i := by
        simp [getRelationStatus, hOut, hfind]
      rw [hStat] at h2
      exact congrArg some (Option.some.inj h2).symm
  have hOutPres : ∀ r : Relation,
      outgoingPred B A
          (if r.id == inc.id then { r with type := RelationType.friend }
            else r) =
        outgoingPred B A r := by
    intro r
    by_cases h : (r.id == inc.id) = true
    · rw [if_pos h]
      rfl
    · rw [if_neg h]
  have hInPres : ∀ r : Relation,
      outgoingPred A B
          (if r.id == inc.id then { r with type := RelationType.friend }
            else r) =
        outgoingPred A B r := by
    intro r
    by_cases h : (r.id == inc.id) = true
    · rw [if_pos h]
      rfl
    · rw [if_neg h]
  have hOut1 : (updateRelType s inc.id RelationType.friend).find?
      (outgoingPred B A) = none := by
    rw [updateRelType_find? s inc.id RelationType.friend
      (outgoingPred B A) hOutPres, hOut]
    rfl
  have hInEq : s.find? (outgoingPred A B) = some inc := hIn
  have hfindAB : (updateRelType s inc.id RelationType.friend).find?
      (outgoingPred A B) =
      some (if inc.id == inc.id then { inc with type := RelationType.friend }
        else inc) := by
    rw [updateRelType_find? s inc.id RelationType.friend
      (outgoingPred A B) hInPres, hInEq]
    rfl
  have hginc : (if inc.id == inc.id then
      { inc with type := RelationType.friend } else inc) =
      { inc with type := RelationType.friend } :=
    if_pos (beq_self_eq_true inc.id)
  rw [hginc] at hfindAB
  refine ⟨updateRelType s inc.id .friend ++ [⟨freshId, B, A, .friend⟩],
    ?_, rfl, ?_, ?_, ?_, ?_⟩
  · rw [acceptFriendRequest_reduce B s A freshId inc hStat]
    have hOut1' : (updateRelType s inc.id RelationType.friend).find?
        (fun r => r.from_user == B && r.to_user == A) = none := hOut1
    rw [hOut1']
  · intro r hr hid
    rcases List.mem_append.mp hr with hr | hr
    · have hr' : r ∈ s.map (fun x =>
          if x.id == inc.id then { x with type := RelationType.friend }
          else x) := hr
      rcases List.mem_map.mp hr' with ⟨x, _, rfl⟩
      by_cases hx : (x.id == inc.id) = true
      · rw [if_pos hx]
      · rw [if_neg hx] at hid ⊢
        exact absurd (beq_iff_eq.mpr hid) hx
    · rcases List.mem_singleton.mp hr with rfl
      rfl
  · exact List.mem_append.mpr (Or.inr (List.mem_singleton.mpr rfl))
  · have hfind2 : (updateRelType s inc.id .friend ++
        [(⟨freshId, B, A, .friend⟩ : Relation)]).find? (outgoingPred B A) =
        some ⟨freshId, B, A, .friend⟩ := by
      rw [List.find?_append, hOut1, Option.none_or,
        List.find?_cons_of_pos _ (by simp [outgoingPred])]
    simp [getRelationStatus, hfind2, RelationType.toComputed]
  · have hfind2 : (updateRelType s inc.id .friend ++
        [(⟨freshId, B, A, .friend⟩ : Relation)]).find? (outgoingPred A B) =
        some { inc with type := RelationType.friend } := by
      rw [List.find?_append, hfindAB]
      rfl
    simp [getRelationStatus, hfind2, RelationType.toComputed]

/-- Witness for accept_friend_request_mutualizes: user 2 accepts the
pending request from user 1. -/
theorem accept_friend_request_mutualizes_witness :
    ∃ s2, acceptFriendRequest (some 2) [⟨3, 1, 2, .pending_sent⟩] 1 6 =
        .ok s2 ∧
      s2 = updateRelType [⟨3, 1, 2, .pending_sent⟩] 3 .friend ++
        [⟨6, 2, 1, .friend⟩] ∧
      (∀ r ∈ s2, r.id = 3 → r.type = .friend) ∧
      (⟨6, 2, 1, .friend⟩ : Relation) ∈ s2 ∧
      (getRelationStatus (some 2) s2 1).type = .friend ∧
      (getRelationStatus (some 1) s2 2).type = .friend :=
  accept_friend_request_mutualizes [⟨3, 1, 2, .pending_sent⟩] 2 1 6
    ⟨3, 1, 2, .pending_sent⟩ (by decide)

/-- Helper: a computed status with isInitiatedByMe = false and a relation
record pins down the two find? results. -/
theorem status_decompose (me userId : Nat) (s : List Relation)
    (t : ComputedRelationType) (rel : Relation)
    (h : getRelationStatus (some me) s userId = ⟨t, false, some rel⟩) :
    s.find? (outgoingPred me userId) = none ∧
    s.find? (incomingPred me userId) = some rel := by
  have hOut : s.find? (outgoingPred me userId) = none := by
    cases hfind : s.find? (outgoingPred me userId) with
    | none => rfl
    | some o =>
      have h2 : getRelationStatus (some me) s userId =
          ⟨o.type.toComputed, true, some o⟩ := by
        simp [getRelationStatus, hfind]
      rw [h] at h2
      exact absurd (congrArg RelationStatus.isInitiatedByMe h2)
        Bool.false_ne_true
  refine ⟨hOut, ?_⟩
  cases hfind : s.find? (incomingPred me userId) with
  | none =>
    have h2 : getRelationStatus (some me) s userId =
        ⟨.no_relation, false, none⟩ := by
      simp [getRelationStatus, hOut, hfind]
    rw [h] at h2
    have h3 : (some rel : Option Relation) = none :=
      congrArg RelationStatus.relation h2
    exact absurd h3 (by simp)
  | some i =>
    have h2 : (getRelationStatus (some me) s userId).relation = some i := by
      simp [getRelationStatus, hOut, hfind]
    rw [h] at h2
    exact congrArg some (Option.some.inj h2).symm

/-- C10: if the target blocked the local user first (computed status
blocked, not initiated by me, held by the incoming record `inc`),
blockUser does not throw AlreadyBlocked: it succeeds, issues exactly one
backend create of a second independent blocked edge local→target (so
replaying the backend operations leaves the target's own blocked edge in
place), and afterwards the computed status toward the target is blocked
with isInitiatedByMe = true. -/
theorem block_after_blocked_by_target (s : List Relation)
    (A B freshId : Nat) (inc : Relation) (hAB : A ≠ B)
    (hStat : getRelationStatus (some A) s B =
      ⟨.blocked, false, some inc⟩) :
    ∃ s2, blockUser (some A) s B freshId =
        .ok (⟨freshId, A, B, .blocked⟩, [s, s2],
          [.createRelation ⟨freshId, A, B, .blocked⟩]) ∧
      getRelationStatus (some A) s2 B =
        ⟨.blocked, true, some ⟨freshId, A, B, .blocked⟩⟩ ∧
      ∀ db : List Relation, inc ∈ db →
        inc ∈ applyOps db [.createRelation ⟨freshId, A, B, .blocked⟩] ∧
        (⟨freshId, A, B, .blocked⟩ : Relation) ∈
          applyOps db [.createRelation ⟨freshId, A, B, .blocked⟩] := by
  have hne : (A == B) = false := beq_eq_false_iff_ne.mpr hAB
  obtain ⟨hOut, hIn⟩ := status_decompose A B s .blocked inc hStat
  have hAF : areFriends (some A) s B = false := by
    show ((getRelationStatus (some A) s B).type ==
      ComputedRelationType.friend) = false
    rw [hStat]
    rfl
  have hrun : blockUser (some A) s B freshId =
      .ok (⟨freshId, A, B, .blocked⟩,
        [s, s.map (fun r => if r.id == inc.id then
          (⟨freshId, A, B, RelationType.blocked⟩ : Relation) else r)],
        [.createRelation ⟨freshId, A, B, .blocked⟩]) := by
    have h1 : blockUser (some A) s B freshId =
        blockUserFinish A s [s] [] B freshId := by
      simp only [blockUser, hne, hAF]
      rfl
    rw [h1]
    simp only [blockUserFinish, hStat]
    rfl
  refine ⟨s.map (fun r => if r.id == inc.id then
      (⟨freshId, A, B, RelationType.blocked⟩ : Relation) else r),
    hrun, ?_, ?_⟩
  · have hmemnone := List.find?_eq_none.mp hOut
    have hcong : ∀ r ∈ s,
        (outgoingPred A B ∘ fun r => if r.id == inc.id then
          (⟨freshId, A, B, RelationType.blocked⟩ : Relation) else r) r =
        (r.id == inc.id) := by
      intro r hr
      by_cases hid : (r.id == inc.id) = true
      · show outgoingPred A B (if r.id == inc.id then _ else r) = _
        rw [if_pos hid, hid]
        simp [outgoingPred]
      · show outgoingPred A B (if r.id == inc.id then _ else r) = _
        rw [if_neg hid]
        cases hb : outgoingPred A B r with
        | false =>
          cases hc : r.id == inc.id with
          | false => rfl
          | true => exact absurd hc hid
        | true => exact absurd hb (hmemnone r hr)
    have hincmem : inc ∈ s := List.mem_of_find?_eq_some hIn
    have hsome : (s.find? (fun r => r.id == inc.id)).isSome :=
      List.find?_isSome.mpr ⟨inc, hincmem, beq_self_eq_true inc.id⟩
    obtain ⟨r0, hr0⟩ := Option.isSome_iff_exists.mp hsome
    have hr0p := List.find?_some hr0
    have hfind2 : (s.map (fun r => if r.id == inc.id then
        (⟨freshId, A, B, RelationType.blocked⟩ : Relation) else r)).find?
        (outgoingPred A B) =
        some ⟨freshId, A, B, RelationType.blocked⟩ := by
      rw [List.find?_map, find_congr hcong, hr0]
      exact congrArg some (if_pos hr0p)
    simp only [getRelationStatus]
    rw [hfind2]
    rfl
  · intro db hdb
    constructor
    · exact List.mem_append.mpr (Or.inl hdb)
    · exact List.mem_append.mpr (Or.inr (List.mem_singleton.mpr rfl))

/-- Witness for block_after_blocked_by_target: user 2 has blocked user 1;
user 1 blocks back. -/
theorem block_after_blocked_by_target_witness :
    ∃ s2, blockUser (some 1) [⟨4, 2, 1, .blocked⟩] 2 9 =
        .ok (⟨9, 1, 2, .blocked⟩, [[⟨4, 2, 1, .blocked⟩], s2],
          [.createRelation ⟨9, 1, 2, .blocked⟩]) ∧
      getRelationStatus (some 1) s2 2 =
        ⟨.blocked, true, some ⟨9, 1, 2, .blocked⟩⟩ ∧
      ∀ db : List Relation, (⟨4, 2, 1, .blocked⟩ : Relation) ∈ db →
        (⟨4, 2, 1, .blocked⟩ : Relation) ∈
          applyOps db [.createRelation ⟨9, 1, 2, .blocked⟩] ∧
        (⟨9, 1, 2, .blocked⟩ : Relation) ∈
          applyOps db [.createRelation ⟨9, 1, 2, .blocked⟩] :=
  block_after_blocked_by_target [⟨4, 2, 1, .blocked⟩] 1 2 9
    ⟨4, 2, 1, .blocked⟩ (by decide) (by decide)

/-- C4: blocking a mutual friend first issues the two friendship deletes
(removeFriend) and only then the blocked-edge create; the in-memory
collection passes through exactly the states s, s1, s1 ++ [blocked edge],
where s1 holds no edge between the pair at all, and no state in the trace
exposes a friend edge and a blocked edge between the pair simultaneously.
The uniqueness hypothesis is the data-model invariant of at most one
stored record per ordered pair. -/
theorem block_friend_teardown_order (s : List Relation)
    (A B i1 i2 freshId : Nat) (hAB : A ≠ B)
    (hU : ∀ r1 ∈ s, ∀ r2 ∈ s, r1.from_user = r2.from_user →
      r1.to_user = r2.to_user → r1 = r2)
    (hf1 : (⟨i1, A, B, .friend⟩ : Relation) ∈ s)
    (hf2 : (⟨i2, B, A, .friend⟩ : Relation) ∈ s) :
    ∃ s1, blockUser (some A) s B freshId =
        .ok (⟨freshId, A, B, .blocked⟩,
          [s, s1, s1 ++ [⟨freshId, A, B, .blocked⟩]],
          [.deleteRelation i1, .deleteRelation i2,
            .createRelation ⟨freshId, A, B, .blocked⟩]) ∧
      (∀ r ∈ s1, ¬pairEdge A B r) ∧
      ∀ st ∈ [s, s1, s1 ++ [(⟨freshId, A, B, .blocked⟩ : Relation)]],
        ¬friendAndBlockedCoexist A B st := by
  have hne : (A == B) = false := beq_eq_false_iff_ne.mpr hAB
  have hOutfind : s.find? (outgoingPred A B) = some ⟨i1, A, B, .friend⟩ := by
    refine find_unique hf1 (by simp [outgoingPred]) ?_
    intro b hb hpb
    have hb1 : b.from_user = A ∧ b.to_user = B := by
      have := hpb
      unfold outgoingPred at this
      rw [Bool.and_eq_true, beq_iff_eq, beq_iff_eq] at this
      exact this
    exact hU b hb ⟨i1, A, B, .friend⟩ hf1 hb1.1 hb1.2
  have hStatus : getRelationStatus (some A) s B =
      ⟨.friend, true, some ⟨i1, A, B, .friend⟩⟩ := by
    simp only [getRelationStatus]
    rw [hOutfind]
    rfl
  have hrecip : s.find? (fun r => r.from_user == B && r.to_user == A &&
      r.type == RelationType.friend) = some ⟨i2, B, A, .friend⟩ := by
    refine find_unique hf2 (by simp) ?_
    intro b hb hpb
    rw [Bool.and_eq_true, Bool.and_eq_true, beq_iff_eq, beq_iff_eq] at hpb
    exact hU b hb ⟨i2, B, A, .friend⟩ hf2 hpb.1.1 hpb.1.2
  have hAF : areFriends (some A) s B = true := by
    show ((getRelationStatus (some A) s B).type ==
      ComputedRelationType.friend) = true
    rw [hStatus]
    rfl
  have hremove : removeFriend (some A) s B =
      .ok (s.filter (fun r => !((r.id == i1 || r.id == i2) &&
          r.type == RelationType.friend)),
        [.deleteRelation i1, .deleteRelation i2]) := by
    simp only [removeFriend, hStatus]
    rw [hrecip]
    rfl
  set s1 : List Relation := s.filter (fun r => !((r.id == i1 || r.id == i2) &&
    r.type == RelationType.friend)) with hs1
  have hpairmem : ∀ r, r ∈ s → pairEdge A B r →
      r = ⟨i1, A, B, .friend⟩ ∨ r = ⟨i2, B, A, .friend⟩ := by
    intro r hr hpe
    rcases hpe with ⟨h1, h2⟩ | ⟨h1, h2⟩
    · exact Or.inl (hU r hr ⟨i1, A, B, .friend⟩ hf1 h1 h2)
    · exact Or.inr (hU r hr ⟨i2, B, A, .friend⟩ hf2 h1 h2)
  have hpair1 : ∀ r ∈ s1, ¬pairEdge A B r := by
    intro r hr hpe
    obtain ⟨hrs, hq⟩ := List.mem_filter.mp hr
    rcases hpairmem r hrs hpe with rfl | rfl
    · simp at hq
    · simp at hq
  have hOut1 : s1.find? (outgoingPred A B) = none := by
    rw [List.find?_eq_none]
    intro r hr hp
    apply hpair1 r hr
    unfold outgoingPred at hp
    rw [Bool.and_eq_true, beq_iff_eq, beq_iff_eq] at hp
    exact Or.inl hp
  have hIn1 : s1.find? (incomingPred A B) = none := by
    rw [List.find?_eq_none]
    intro r hr hp
    apply hpair1 r hr
    unfold incomingPred at hp
    rw [Bool.and_eq_true, beq_iff_eq, beq_iff_eq] at hp
    exact Or.inr ⟨hp.1, hp.2⟩
  have hStatus1 : getRelationStatus (some A) s1 B =
      ⟨.no_relation, false, none⟩ := by
    simp only [getRelationStatus]
    rw [hOut1, hIn1]
  have hrun : blockUser (some A) s B freshId =
      .ok (⟨freshId, A, B, .blocked⟩,
        [s, s1, s1 ++ [⟨freshId, A, B, .blocked⟩]],
        [.deleteRelation i1, .deleteRelation i2,
          .createRelation ⟨freshId, A, B, .blocked⟩]) := by
    have h1 : blockUser (some A) s B freshId =
        blockUserFinish A s1 [s, s1] [.deleteRelation i1, .deleteRelation i2]
          B freshId := by
      simp only [blockUser, hne, hAF]
      rw [hremove]
      rfl
    rw [h1]
    simp only [blockUserFinish, hStatus1]
    rfl
  have hnoblock : ∀ r ∈ s, pairEdge A B r →
      r.type = RelationType.blocked → False := by
    intro r hr hpe hbt
    rcases hpairmem r hr hpe with rfl | rfl <;> cases hbt
  refine ⟨s1, hrun, hpair1, ?_⟩
  intro st hst
  simp only [List.mem_cons, List.mem_singleton, List.not_mem_nil,
    or_false] at hst
  rcases hst with rfl | rfl | rfl
  · rintro ⟨_, ⟨rb, hrb, hpe, hbt⟩⟩
    exact hnoblock rb hrb hpe hbt
  · rintro ⟨⟨rf, hrf, hpe, _⟩, _⟩
    exact hpair1 rf hrf hpe
  · rintro ⟨⟨rf, hrf, hpe, hft⟩, _⟩
    rcases List.mem_append.mp hrf with hrf | hrf
    · exact hpair1 rf hrf hpe
    · rcases List.mem_singleton.mp hrf with rfl
      cases hft

/-- Witness for block_friend_teardown_order: mutual friends 1 and 2,
user 1 blocks user 2. -/
theorem block_friend_teardown_order_witness :
    ∃ s1, blockUser (some 1) [⟨1, 1, 2, .friend⟩, ⟨2, 2, 1, .friend⟩] 2 9 =
        .ok (⟨9, 1, 2, .blocked⟩,
          [[⟨1, 1, 2, .friend⟩, ⟨2, 2, 1, .friend⟩], s1,
            s1 ++ [⟨9, 1, 2, .blocked⟩]],
          [.deleteRelation 1, .deleteRelation 2,
            .createRelation ⟨9, 1, 2, .blocked⟩]) ∧
      (∀ r ∈ s1, ¬pairEdge 1 2 r) ∧
      ∀ st ∈ [[⟨1, 1, 2, .friend⟩, ⟨2, 2, 1, .friend⟩], s1,
          s1 ++ [(⟨9, 1, 2, .blocked⟩ : Relation)]],
        ¬friendAndBlockedCoexist 1 2 st :=
  block_friend_teardown_order [⟨1, 1, 2, .friend⟩, ⟨2, 2, 1, .friend⟩]
    1 2 1 2 9 (by decide) (by decide) (by decide) (by decide)

/-- Helper: the two block checks both fail exactly when the computed
status kind is not blocked. -/
theorem blocked_checks_iff (me : Nat) (memRels : List Relation)
    (other : Nat) :
    (isBlockedByMe (some me) memRels other = false ∧
      isBlockedBy (some me) memRels other = false) ↔
    (getRelationStatus (some me) memRels other).type ≠
      ComputedRelationType.blocked := by
  simp only [isBlockedByMe, isBlockedBy]
  cases hm : (getRelationStatus (some me) memRels other).isInitiatedByMe <;>
    by_cases ht : (getRelationStatus (some me) memRels other).type =
      ComputedRelationType.blocked <;>
  · first
    | (simp [ht, beq_eq_false_iff_ne.mpr ht])
    | (simp [ht])

/-- Helper: a conversation collection filtered by `not this id` holds no
entry with that id. -/
theorem no_id_in_removed (mem : List Conversation) (rid : Nat)
    (fr : Conversation) (hfr : fr.id = rid) :
    ¬∃ c ∈ mem.filter (fun c => !(c.id == fr.id)), c.id = rid := by
  rintro ⟨c, hc, hcid⟩
  obtain ⟨_, hq⟩ := List.mem_filter.mp hc
  rw [Bool.not_eq_true', beq_eq_false_iff_ne] at hq
  exact hq (hcid.trans hfr.symm)

/-- C1 counterexample: with a single one-directional friend edge 1→2 in
both the in-memory and the backend relation collections, fetchConversations
keeps the conversation of the pair although mutual friendship (both
directional edges) does not hold, so the claimed if-and-only-if with the
specification's visibility predicate fails. -/
theorem conversation_visibility_counterexample :
    fetchConversations 1 [⟨1, 1, 2, .friend⟩] [⟨1, 1, 2, .friend⟩]
      [⟨1, [1, 2]⟩] false = [⟨1, [1, 2]⟩] ∧
    ¬specVisible 1 [⟨1, 1, 2, .friend⟩] ⟨1, [1, 2]⟩ := by
  constructor
  · rfl
  · decide

/-- C1 (amended): a conversation survives fetchConversations, and a
reconciled record is retained by handleConversationCreateOrUpdate, if and
only if the other participant is resolvable, the computed in-memory
status with them is not blocked, and at least one directional friend edge
(not necessarily both) exists in the backend relations collection. -/
theorem conversation_visibility_code (me : Nat)
    (memRels relDB : List Relation) (fetched convDB mem : List Conversation)
    (recordId : Nat) (fullRecord : Conversation) :
    (∀ conv, conv ∈ fetchConversations me memRels relDB fetched false ↔
      conv ∈ fetched ∧ codeVisible me memRels relDB conv) ∧
    (convDB.find? (fun c => c.id == recordId) = some fullRecord →
      ((∃ c ∈ handleConversationCreateOrUpdate (some me) memRels relDB
          convDB mem recordId false, c.id = recordId) ↔
        codeVisible me memRels relDB fullRecord)) := by
  have hmain : ∀ conv : Conversation,
      ((match getOtherParticipant (some me) conv with
        | none => false
        | some other =>
          if isBlockedByMe (some me) memRels other then false
          else if isBlockedBy (some me) memRels other then false
          else if (false : Bool) then false
          else friendEdgeEitherDirection relDB me other) = true) ↔
      codeVisible me memRels relDB conv := by
    intro conv
    cases hop : getOtherParticipant (some me) conv with
    | none => simp [codeVisible, hop]
    | some other =>
      by_cases hbl : (getRelationStatus (some me) memRels other).type =
          ComputedRelationType.blocked
      · cases hm : (getRelationStatus (some me) memRels other).isInitiatedByMe
        · have h1 : isBlockedByMe (some me) memRels other = false := by
            simp [isBlockedByMe, hm]
          have h2 : isBlockedBy (some me) memRels other = true := by
            simp [isBlockedBy, hbl, hm]
          simp [h1, h2, codeVisible, hop, hbl]
        · have h1 : isBlockedByMe (some me) memRels other = true := by
            simp [isBlockedByMe, hbl, hm]
          simp [h1, codeVisible, hop, hbl]
      · have hb : ((getRelationStatus (some me) memRels other).type ==
            ComputedRelationType.blocked) = false :=
          beq_eq_false_iff_ne.mpr hbl
        have h1 : isBlockedByMe (some me) memRels other = false := by
          simp [isBlockedByMe, hb]
        have h2 : isBlockedBy (some me) memRels other = false := by
          simp [isBlockedBy, hb]
        simp [h1, h2, codeVisible, hop, hbl]
  constructor
  · intro conv
    simp only [fetchConversations, List.mem_filter]
    exact and_congr_right fun _ => hmain conv
  · intro hfound
    have hfid : fullRecord.id = recordId := by
      have := List.find?_some hfound
      exact beq_iff_eq.mp this
    have hred1 : handleConversationCreateOrUpdate (some me) memRels relDB
        convDB mem recordId false =
        reconcileConversation (some me) memRels relDB mem fullRecord false := by
      simp only [handleConversationCreateOrUpdate]
      rw [hfound]
    rw [hred1]
    cases hop : getOtherParticipant (some me) fullRecord with
    | none =>
      have hred2 : reconcileConversation (some me) memRels relDB mem
          fullRecord false =
          mem.filter (fun c => !(c.id == fullRecord.id)) := by
        simp only [reconcileConversation]
        rw [hop]
      rw [hred2]
      constructor
      · intro h
        exact absurd h (no_id_in_removed mem recordId fullRecord hfid)
      · rintro ⟨o, ho, _⟩
        rw [hop] at ho
        cases ho
    | some other =>
      have hred2 : reconcileConversation (some me) memRels relDB mem
          fullRecord false =
          reconcileVisible me other memRels relDB mem fullRecord false := by
        simp only [reconcileConversation]
        rw [hop]
      rw [hred2]
      simp only [reconcileVisible]
      by_cases hbl : (getRelationStatus (some me) memRels other).type =
          ComputedRelationType.blocked
      · have hblkor : isBlockedByMe (some me) memRels other = true ∨
            (isBlockedByMe (some me) memRels other = false ∧
              isBlockedBy (some me) memRels other = true) := by
          cases hm : (getRelationStatus (some me) memRels other).isInitiatedByMe
          · exact Or.inr ⟨by simp [isBlockedByMe, hm],
              by simp [isBlockedBy, hbl, hm]⟩
          · exact Or.inl (by simp [isBlockedByMe, hbl, hm])
        have hremoved : (∃ c ∈ mem.filter (fun c => !(c.id == fullRecord.id)),
            c.id = recordId) ↔ codeVisible me memRels relDB fullRecord := by
          constructor
          · intro h
            exact absurd h (no_id_in_removed mem recordId fullRecord hfid)
          · rintro ⟨o, ho, hnb, _⟩
            rw [hop] at ho
            cases ho
            exact absurd hbl hnb
        rcases hblkor with h1 | ⟨h1, h2⟩
        · rw [if_pos h1]
          exact hremoved
        · rw [if_neg (by simp [h1]), if_pos h2]
          exact hremoved
      · have hb12 := (blocked_checks_iff me memRels other).mpr hbl
        rw [if_neg (by simp [hb12.1]), if_neg (by simp [hb12.2]),
          if_neg (by simp)]
        cases hfe : friendEdgeEitherDirection relDB me other with
        | false =>
          rw [if_neg (by simp)]
          constructor
          · intro h
            exact absurd h (no_id_in_removed mem recordId fullRecord hfid)
          · rintro ⟨o, ho, _, hfo⟩
            rw [hop] at ho
            cases ho
            rw [hfe] at hfo
            cases hfo
        | true =>
          rw [if_pos rfl]
          have hvis : codeVisible me memRels relDB fullRecord :=
            ⟨other, hop, hbl, hfe⟩
          cases hany : mem.any (fun c => c.id == fullRecord.id) with
          | true =>
            rw [if_pos rfl]
            constructor
            · intro _
              exact hvis
            · intro _
              obtain ⟨c0, hc0, hc0id⟩ := List.any_eq_true.mp hany
              refine ⟨fullRecord, ?_, hfid⟩
              exact List.mem_map.mpr ⟨c0, hc0, by rw [if_pos hc0id]⟩
          | false =>
            rw [if_neg (by simp)]
            constructor
            · intro _
              exact hvis
            · intro _
              exact ⟨fullRecord, List.mem_cons_self fullRecord mem, hfid⟩

/-- Witness for conversation_visibility_code: a conversation between 5
and 6 is retained by the reconciliation handler when a friend edge 5→6
exists. -/
theorem conversation_visibility_code_witness :
    ∃ c ∈ handleConversationCreateOrUpdate (some 5) [⟨1, 5, 6, .friend⟩]
      [⟨1, 5, 6, .friend⟩] [⟨3, [5, 6]⟩] [] 3 false, c.id = 3 :=
  ((conversation_visibility_code 5 [⟨1, 5, 6, .friend⟩]
      [⟨1, 5, 6, .friend⟩] [] [⟨3, [5, 6]⟩] [] 3 ⟨3, [5, 6]⟩).2
    (by rfl)).mpr
    ⟨6, by rfl, by decide, by decide⟩

/-- Helper: filtering can only lower a countP. -/
theorem countP_filter_le {α : Type} (p q : α → Bool) (l : List α) :
    (l.filter q).countP p ≤ l.countP p := by
  rw [List.countP_filter]
  exact List.countP_mono_left fun a _ h => (Bool.and_eq_true _ _ |>.mp h).1

/-- Helper: a map that preserves the predicate preserves countP. -/
theorem countP_map_of_pres {α : Type} (p : α → Bool) (g : α → α)
    (l : List α) (h : ∀ a ∈ l, p (g a) = p a) :
    (l.map g).countP p = l.countP p := by
  induction l with
  | nil => rfl
  | cons x t ih =>
    simp only [List.map_cons, List.countP_cons]
    rw [h x (List.mem_cons_self x t),
      ih fun a ha => h a (List.mem_cons_of_mem x ha)]

/-- Helper: the three possible outcomes of reconcileVisible — removal,
in-place replacement, or prepend (the latter only when the id is not yet
present). -/
theorem reconcileVisible_cases (me other : Nat)
    (memRels relDB : List Relation) (mem : List Conversation)
    (fr : Conversation) :
    reconcileVisible me other memRels relDB mem fr false =
      mem.filter (fun c => !(c.id == fr.id)) ∨
    (mem.any (fun c => c.id == fr.id) = true ∧
      reconcileVisible me other memRels relDB mem fr false =
        mem.map (fun c => if c.id == fr.id then fr else c)) ∨
    (mem.any (fun c => c.id == fr.id) = false ∧
      reconcileVisible me other memRels relDB mem fr false = fr :: mem) := by
  simp only [reconcileVisible]
  by_cases h1 : isBlockedByMe (some me) memRels other = true
  · rw [if_pos h1]
    exact Or.inl rfl
  rw [if_neg h1]
  by_cases h2 : isBlockedBy (some me) memRels other = true
  · rw [if_pos h2]
    exact Or.inl rfl
  rw [if_neg h2, if_neg (by simp)]
  by_cases h3 : friendEdgeEitherDirection relDB me other = true
  · rw [if_pos h3]
    cases h4 : mem.any (fun c => c.id == fr.id) with
    | true =>
      rw [if_pos rfl]
      exact Or.inr (Or.inl ⟨rfl, rfl⟩)
    | false =>
      rw [if_neg (by simp)]
      exact Or.inr (Or.inr ⟨rfl, rfl⟩)
  · rw [if_neg h3]
    exact Or.inl rfl

/-- C7 counterexample: an already-present conversation is removed by a
replayed create event once the relation state no longer passes the
visibility check, so the collection does not stay unchanged. -/
theorem replay_create_conversation_counterexample :
    ((⟨1, [1, 2]⟩ : Conversation) ∈ ([⟨1, [1, 2]⟩] : List Conversation)) ∧
    handleConversationCreateOrUpdate (some 1) [] [] [⟨1, [1, 2]⟩]
      [⟨1, [1, 2]⟩] 1 false ≠ [⟨1, [1, 2]⟩] := by
  decide

/-- C7 (amended): replaying a create event for an already-present
relation or message identifier leaves that collection unchanged; for a
conversation identifier the replay never adds a duplicate entry (the
number of entries with that identifier does not grow), and the collection
is unchanged provided the stored entries with that identifier equal the
refetched record and the visibility check still passes — when the check
now fails, the replay removes the conversation instead. -/
theorem replay_create_idempotence_code :
    (∀ (s : List Relation) (record : Relation),
      s.any (fun r => r.id == record.id) = true →
      handleRelationCreate s record = s) ∧
    (∀ (mem : List Message) (record : Message),
      mem.any (fun m => m.id == record.id) = true →
      handleMessageCreate mem record = mem) ∧
    (∀ (me recordId : Nat) (memRels relDB : List Relation)
      (convDB mem : List Conversation),
      mem.any (fun c => c.id == recordId) = true →
      (handleConversationCreateOrUpdate (some me) memRels relDB convDB mem
        recordId false).countP (fun c => c.id == recordId) ≤
        mem.countP (fun c => c.id == recordId)) ∧
    (∀ (me recordId : Nat) (memRels relDB : List Relation)
      (convDB mem : List Conversation) (fullRecord : Conversation),
      convDB.find? (fun c => c.id == recordId) = some fullRecord →
      (∀ c ∈ mem, c.id = recordId → c = fullRecord) →
      mem.any (fun c => c.id == recordId) = true →
      codeVisible me memRels relDB fullRecord →
      handleConversationCreateOrUpdate (some me) memRels relDB convDB mem
        recordId false = mem) := by
  refine ⟨?_, ?_, ?_, ?_⟩
  · intro s record h
    simp only [handleRelationCreate]
    rw [if_pos h]
  · intro mem record h
    simp only [handleMessageCreate]
    rw [if_pos h]
  · intro me recordId memRels relDB convDB mem hany
    cases hfound : convDB.find? (fun c => c.id == recordId) with
    | none =>
      have hred : handleConversationCreateOrUpdate (some me) memRels relDB
          convDB mem recordId false = mem := by
        simp only [handleConversationCreateOrUpdate]
        rw [hfound]
      rw [hred]
    | some fr =>
      have hfid : fr.id = recordId := by
        have := List.find?_some hfound
        exact beq_iff_eq.mp this
      have hred1 : handleConversationCreateOrUpdate (some me) memRels relDB
          convDB mem recordId false =
          reconcileConversation (some me) memRels relDB mem fr false := by
        simp only [handleConversationCreateOrUpdate]
        rw [hfound]
      rw [hred1]
      cases hop : getOtherParticipant (some me) fr with
      | none =>
        have hred2 : reconcileConversation (some me) memRels relDB mem
            fr false = mem.filter (fun c => !(c.id == fr.id)) := by
          simp only [reconcileConversation]
          rw [hop]
        rw [hred2]
        exact countP_filter_le _ _ mem
      | some other =>
        have hred2 : reconcileConversation (some me) memRels relDB mem
            fr false =
            reconcileVisible me other memRels relDB mem fr false := by
          simp only [reconcileConversation]
          rw [hop]
        rw [hred2]
        rcases reconcileVisible_cases me other memRels relDB mem fr with
          h | ⟨_, h⟩ | ⟨hanyf, _⟩
        · rw [h]
          exact countP_filter_le _ _ mem
        · rw [h]
          rw [countP_map_of_pres]
          intro c _
          by_cases hcid : (c.id == fr.id) = true
          · rw [if_pos hcid]
            have : (fr.id == recordId) = true := beq_iff_eq.mpr hfid
            rw [this]
            rw [hfid] at hcid
            rw [hcid]
          · rw [if_neg hcid]
        · rw [hfid] at hanyf
          rw [hany] at hanyf
          cases hanyf
  · intro me recordId memRels relDB convDB mem fullRecord hfound hmemeq
      hany hvis
    obtain ⟨other, hop, hnb, hfe⟩ := hvis
    have hfid : fullRecord.id = recordId := by
      have := List.find?_some hfound
      exact beq_iff_eq.mp this
    have hb12 := (blocked_checks_iff me memRels other).mpr hnb
    have hred1 : handleConversationCreateOrUpdate (some me) memRels relDB
        convDB mem recordId false =
        reconcileConversation (some me) memRels relDB mem fullRecord
          false := by
      simp only [handleConversationCreateOrUpdate]
      rw [hfound]
    have hred2 : reconcileConversation (some me) memRels relDB mem
        fullRecord false =
        reconcileVisible me other memRels relDB mem fullRecord false := by
      simp only [reconcileConversation]
      rw [hop]
    rw [hred1, hred2]
    simp only [reconcileVisible]
    rw [if_neg (by simp [hb12.1]), if_neg (by simp [hb12.2]),
      if_neg (by simp), if_pos hfe,
      if_pos (by rw [show fullRecord.id = recordId from hfid]; exact hany)]
    have hmap : ∀ c ∈ mem,
        (if c.id == fullRecord.id then fullRecord else c) = c := by
      intro c hc
      by_cases hcid : (c.id == fullRecord.id) = true
      · rw [if_pos hcid]
        exact (hmemeq c hc ((beq_iff_eq.mp hcid).trans hfid)).symm
      · rw [if_neg hcid]
    rw [List.map_congr_left hmap, List.map_id']

/-- Witness for replay_create_idempotence_code: replaying the create of a
conversation already present and still visible leaves the collection
unchanged. -/
theorem replay_create_idempotence_code_witness :
    handleConversationCreateOrUpdate (some 5) [⟨1, 5, 6, .friend⟩]
      [⟨1, 5, 6, .friend⟩] [⟨3, [5, 6]⟩] [⟨3, [5, 6]⟩] 3 false =
      [⟨3, [5, 6]⟩] :=
  replay_create_idempotence_code.2.2.2 5 3 [⟨1, 5, 6, .friend⟩]
    [⟨1, 5, 6, .friend⟩] [⟨3, [5, 6]⟩] [⟨3, [5, 6]⟩] ⟨3, [5, 6]⟩
    (by rfl) (by decide) (by rfl) ⟨6, by rfl, by decide, by decide⟩

/-- C8 counterexample: the other participant holds a blocked edge toward
the local user in the in-memory relation collection, but because an
outgoing friend edge shadows it in getRelationStatus, sendMessage does not
throw — it issues the message create and the conversation update. -/
theorem send_message_block_counterexample :
    (∃ r ∈ [(⟨1, 1, 2, .friend⟩ : Relation), ⟨2, 2, 1, .blocked⟩],
      r.from_user = 2 ∧ r.to_user = 1 ∧ r.type = RelationType.blocked) ∧
    sendMessage (some 1) [⟨1, 1, 2, .friend⟩, ⟨2, 2, 1, .blocked⟩]
      [⟨5, [1, 2]⟩] 5 "hi" 7 =
      (.ok ⟨7, "hi", 1, 5⟩,
        [.createMessage ⟨7, "hi", 1, 5⟩, .updateConversation 5]) := by
  constructor
  · decide
  · rfl

/-- C8 (amended): sendMessage throws a blocking error before any backend
mutation exactly when the computed in-memory status with the
conversation's other participant is blocked (in either derived
direction); a stored blocked edge shadowed by an outgoing non-blocked
edge is not detected. -/
theorem send_message_block_check_code (me convId freshId other : Nat)
    (memRels : List Relation) (convDB : List Conversation)
    (conv : Conversation) (text : String)
    (htext : (trimString text).isEmpty = false)
    (hconv : convDB.find? (fun c => c.id == convId) = some conv)
    (hother : conv.participants.find? (fun p => !(p == me)) = some other)
    (hblk : (getRelationStatus (some me) memRels other).type =
      ComputedRelationType.blocked) :
    ∃ e, sendMessage (some me) memRels convDB convId text freshId =
        (.error e, []) ∧
      (e = ChatErr.blockedByMe ∨ e = ChatErr.blockedBy) := by
  have ha : checkBlockStatus (some me) memRels convDB convId =
      match conv.participants.find? (fun p => !(p == me)) with
      | none => Except.error ChatErr.noOtherParticipant
      | some o => blockGuard me o memRels := by
    simp only [checkBlockStatus]
    rw [hconv]
  have hb : checkBlockStatus (some me) memRels convDB convId =
      blockGuard me other memRels := by
    rw [ha, hother]
  have hs : ∀ e : ChatErr,
      checkBlockStatus (some me) memRels convDB convId = .error e →
      sendMessage (some me) memRels convDB convId text freshId =
        (.error e, []) := by
    intro e he
    have hs1 : sendMessage (some me) memRels convDB convId text freshId =
        match checkBlockStatus (some me) memRels convDB convId with
        | .error e1 => (.error e1, [])
        | .ok _ =>
          (.ok ⟨freshId, trimString text, me, convId⟩,
            [.createMessage ⟨freshId, trimString text, me, convId⟩,
              .updateConversation convId]) := by
      simp only [sendMessage]
      rw [htext]
      rfl
    rw [hs1, he]
  cases hm : (getRelationStatus (some me) memRels other).isInitiatedByMe with
  | true =>
    have h1 : isBlockedByMe (some me) memRels other = true := by
      simp [isBlockedByMe, hblk, hm]
    refine ⟨.blockedByMe, hs _ ?_, Or.inl rfl⟩
    rw [hb]
    simp only [blockGuard]
    rw [if_pos h1]
  | false =>
    have h1 : isBlockedByMe (some me) memRels other = false := by
      simp [isBlockedByMe, hm]
    have h2 : isBlockedBy (some me) memRels other = true := by
      simp [isBlockedBy, hblk, hm]
    refine ⟨.blockedBy, hs _ ?_, Or.inr rfl⟩
    rw [hb]
    simp only [blockGuard]
    rw [if_neg (by simp [h1]), if_pos h2]

/-- Witness for send_message_block_check_code: user 2 blocked user 1 and
no shadowing outgoing edge exists, so the send fails with a blocking
error and no backend operation. -/
theorem send_message_block_check_code_witness :
    ∃ e, sendMessage (some 1) [⟨2, 2, 1, .blocked⟩] [⟨5, [1, 2]⟩] 5
        "hi" 7 = (.error e, []) ∧
      (e = ChatErr.blockedByMe ∨ e = ChatErr.blockedBy) :=
  send_message_block_check_code 1 5 7 2 [⟨2, 2, 1, .blocked⟩]
    [⟨5, [1, 2]⟩] ⟨5, [1, 2]⟩ "hi" (by decide) (by rfl) (by rfl)
    (by decide)

end PocketChat
